import Mathlib

/-!
Shallow embedding of `src/apply_metadata.py` (audiobook metadata pipeline).

The program walks a directory tree, classifies each directory with audio
files as a single book or mixed content using a filename heuristic,
asks an external assistant (the `gemini` CLI) for metadata, gates the
answer by a confidence threshold, persists `metadata.json`, and optionally
triggers a re-scan in a remote Audiobookshelf catalog.

External effects are modelled as explicit inputs:
* `Env.rawOutput` is the text returned by `call_gemini_cli` (`none` on a
  transport error, where the Python function returns `None`);
* `Env.metadataExists` is whether `metadata.json` already exists in the
  task's directory;
* `Env.triggerOk` is whether the HTTP POST inside `trigger_abs_scan`
  succeeds;
* the JSON decoder `json.loads` is an abstract parameter
  `parse : String → Option Record`, specialised to JSON objects, the only
  shape the claims exercise (a `json.loads` result that is not an object is
  outside the modelled behaviour);
* the filesystem walk `os.walk` is a list of directory entries, each with
  the directory's base name and its file names.

String primitives are re-implemented structurally over `List Char` so that
all definitions evaluate by kernel reduction.
-/

namespace ApplyMetadata

/-- ASCII/Unicode whitespace trim from both ends, modelling Python's
`str.strip()` (restricted to the whitespace characters
`Char.isWhitespace` recognises, which covers everything the program
feeds it). -/
def strTrim (s : String) : String :=
  (((s.data.dropWhile Char.isWhitespace).reverse.dropWhile Char.isWhitespace).reverse).asString

/-- `prefB p l` is true when the character list `p` is an initial segment
of `l`. -/
def prefB : List Char → List Char → Bool
  | [], _ => true
  | _ :: _, [] => false
  | a :: as, b :: bs => a == b && prefB as bs

/-- Python `s.startswith(p)`. -/
def strStartsWith (s p : String) : Bool := prefB p.data s.data

/-- Python `s.endswith(p)`. -/
def strEndsWith (s p : String) : Bool := prefB p.data.reverse s.data.reverse

/-- Python `s[n:]`. -/
def strDrop (s : String) (n : Nat) : String := (s.data.drop n).asString

/-- Python `s[:-n]` for `n ≤ len(s)`. -/
def strDropRight (s : String) (n : Nat) : String :=
  (s.data.take (s.data.length - n)).asString

/-- Python `s.lower()` (ASCII case folding suffices for the program's
inputs). -/
def strLower (s : String) : String := (s.data.map Char.toLower).asString

/-- `subB needle hay` is true when `needle` occurs as a contiguous
substring of `hay`: Python's `needle in hay`. -/
def subB (needle : List Char) : List Char → Bool
  | [] => prefB needle []
  | c :: cs => prefB needle (c :: cs) || subB needle cs

/-- Index of the first occurrence of `c`, if any. -/
def idxOf (c : Char) : List Char → Option Nat
  | [] => none
  | a :: as => if a == c then some 0 else (idxOf c as).map (· + 1)

/-- Python `s.find(c)`: first index of `c`, or `-1`. -/
def pyFind (s : String) (c : Char) : Int :=
  match idxOf c s.data with
  | some i => (i : Int)
  | none => -1

/-- Python `s.rfind(c)`: last index of `c`, or `-1`. -/
def pyRFind (s : String) (c : Char) : Int :=
  match idxOf c s.data.reverse with
  | some i => ((s.data.length - 1 - i : Nat) : Int)
  | none => -1

/-- Python `s[a:b+1]` for nonnegative indices: the characters at
positions `a`..`b` inclusive. -/
def pySliceCl (s : String) (a b : Nat) : String :=
  ((s.data.drop a).take (b + 1 - a)).asString

/-!  JSON values and records (Python dicts).  A `Value` covers the shapes
of JSON data the program's logic actually inspects: the confidence field
(number or arbitrary string), flat string fields, and string lists
(authors, genres, ...).  Nested values the code merely copies through are
representable by any constructor, since every claim treats them
opaquely. -/

inductive Value where
  | null
  | boolV (b : Bool)
  | num (q : ℚ)
  | str (s : String)
  | strList (l : List String)
deriving DecidableEq, Repr

/-- A parsed JSON object, as an association list in insertion order
(Python dicts preserve insertion order and have unique keys). -/
abbrev Record := List (String × Value)

/-- Python `d.get(k, dflt)`. -/
def dictGet (m : Record) (k : String) (dflt : Value) : Value :=
  match m.lookup k with
  | some v => v
  | none => dflt

/-- Python `d.pop(k, None)` on a copy: the record without key `k`. -/
def dictPop (m : Record) (k : String) : Record :=
  m.filter (fun kv => kv.1 != k)

/-- The code-fence stripping steps of `extract_json` (lines 97–105):
strip whitespace, drop a leading ```` ```json ```` marker, drop a leading
```` ``` ```` marker, drop a trailing ```` ``` ```` marker, strip again. -/
def stripFences (text : String) : String :=
  let t0 := strTrim text
  let t1 := if strStartsWith t0 "```json" then strDrop t0 7 else t0
  let t2 := if strStartsWith t1 "```" then strDrop t1 3 else t1
  let t3 := if strEndsWith t2 "```" then strDropRight t2 3 else t2
  strTrim t3

/-- The brace-span step of `extract_json` (lines 107–117): the substring
from the first `{` to the last `}` when both exist (Python
`text[start:end+1]`), else `None`. -/
def spanOf (t : String) : Option String :=
  if pyFind t '{' ≠ -1 ∧ pyRFind t '}' ≠ -1 then
    some (pySliceCl t (pyFind t '{').toNat (pyRFind t '}').toNat)
  else none

/-- `extract_json` (lines 91–117).  `none` input models a `None` argument
(transport failure upstream); `if not text` also rejects the empty
string.  `parse` abstracts `json.loads` restricted to objects, returning
`none` on a decode error. -/
def extract_json (parse : String → Option Record) : Option String → Option Record
  | none => none
  | some text =>
    if text = "" then none
    else
      match spanOf (stripFences text) with
      | none => none
      | some s => parse s

/-!  Python `float()` on a JSON value, as used on the confidence field
(line 209): `float` succeeds on numbers, booleans, and strings that are
decimal float literals; it raises `ValueError` on other strings and
`TypeError` on `None` and lists.  The string branch parses optionally
signed decimal literals (scientific notation and `inf`/`nan`, which the
program never receives, are out of the modelled grammar). -/

/-- Digits of a character list read as a base-10 natural number. -/
def digitsToNat (cs : List Char) : Nat :=
  cs.foldl (fun acc c => acc * 10 + (c.toNat - 48)) 0

/-- Parse an optionally signed decimal literal (`123`, `-1.5`, `+.5`,
`2.`), as accepted by Python's `float(str)` on the inputs the program
sees; `none` on anything else. -/
def parseFloatLit (s : String) : Option ℚ :=
  let cs0 := s.data
  let sign : ℚ := if cs0.take 1 = ['-'] then -1 else 1
  let cs := if cs0.take 1 = ['-'] ∨ cs0.take 1 = ['+'] then cs0.drop 1 else cs0
  let intPart := cs.takeWhile Char.isDigit
  let rest := cs.dropWhile Char.isDigit
  match rest with
  | [] =>
    if intPart = [] then none
    else some (sign * (digitsToNat intPart : ℚ))
  | '.' :: frac =>
    if frac.all Char.isDigit ∧ (intPart ≠ [] ∨ frac ≠ []) then
      some (sign * ((digitsToNat intPart : ℚ) +
        (digitsToNat frac : ℚ) / ((10 : ℚ) ^ frac.length)))
    else none
  | _ => none

/-- Python `float(v)` on a JSON value; `Except.error` models the raised
exception (`ValueError`/`TypeError`), which `process_file` does not
catch. -/
def pyFloat : Value → Except String ℚ
  | .num q => .ok q
  | .boolV b => .ok (if b then 1 else 0)
  | .str s =>
    match parseFloatLit (strTrim s) with
    | some q => .ok q
    | none => .error "ValueError"
  | .null => .error "TypeError"
  | .strList _ => .error "TypeError"

/-!  The enrichment worker `process_file` (lines 169–286) and its
collaborators. -/

/-- A remote Audiobookshelf item, reduced to the identifier the program
uses to trigger a re-scan. -/
structure Item where
  id : String
deriving DecidableEq, Repr

/-- The `abs_config` dict built in `main` (lines 305–314): the lookup map
from folder basename to remote item (url and token only feed the HTTP
calls and are dropped from the model). -/
structure AbsConfig where
  map : List (String × Item)
deriving DecidableEq, Repr

/-- The external world one worker invocation observes. -/
structure Env where
  metadataExists : Bool
  rawOutput : Option String
  triggerOk : Bool
deriving DecidableEq, Repr

/-- Observable outcome of one `process_file` call: the returned boolean,
whether the assistant CLI was invoked, the JSON object written to
`metadata.json` (if any), and the result of the re-scan trigger (`false`
when no trigger was attempted or the POST failed). -/
structure ProcResult where
  ret : Bool
  invokedAssistant : Bool
  persisted : Option Record
  scanTriggered : Bool
deriving DecidableEq, Repr

/-- `trigger_abs_scan` (lines 159–167): the POST's exception is caught
and turned into `False`; the function never raises. -/
def trigger_abs_scan (postOk : Bool) : Bool := postOk

/-- `process_file` (lines 169–286).  Faithful control flow:
1. return `False` early when `metadata.json` exists and neither
   `dry_run` nor `force` is set (line 180);
2. invoke the assistant and run `extract_json`; a falsy result
   (`None` or an empty object) returns `False` (lines 195–205);
3. `float()` the confidence, default `0.5` when the key is absent
   (lines 208–209) — an unconvertible value raises, modelled as
   `Except.error`;
4. reject below `0.60` (lines 214–220);
5. in dry-run, report success without persisting (lines 222–229);
6. otherwise persist the record minus `confidence` and
   `confidence_reason` (lines 237–243), then, when ABS is configured,
   look up the folder basename and trigger a re-scan on a hit, ignoring
   the trigger's result; a miss only logs a warning (lines 246–284);
7. return `True` (line 286). -/
def process_file (parse : String → Option Record) (env : Env)
    (folderName : String) (dry_run : Bool) (absConfig : Option AbsConfig)
    (force : Bool) : Except String ProcResult :=
  if env.metadataExists && !dry_run && !force then
    .ok ⟨false, false, none, false⟩
  else
    match extract_json parse env.rawOutput with
    | none => .ok ⟨false, true, none, false⟩
    | some metadata =>
      if metadata.isEmpty then .ok ⟨false, true, none, false⟩
      else
        match pyFloat (dictGet metadata "confidence" (Value.num (1/2))) with
        | .error e => .error e
        | .ok confidence =>
          if confidence < 3/5 then .ok ⟨false, true, none, false⟩
          else if dry_run then .ok ⟨true, true, none, false⟩
          else
            let meta_to_save :=
              dictPop (dictPop metadata "confidence") "confidence_reason"
            let triggered :=
              match absConfig with
              | none => false
              | some cfg =>
                match cfg.map.lookup folderName with
                | some _ => trigger_abs_scan env.triggerOk
                | none => false
            .ok ⟨true, true, some meta_to_save, triggered⟩

/-!  The tree scanner in `main` (lines 321–372): audio detection, the
filename grouping heuristic, and the limited walk. -/

/-- `AUDIO_EXTENSIONS` (line 15). -/
def AUDIO_EXTENSIONS : List String :=
  [".m4b", ".mp3", ".m4a", ".flac", ".aac", ".ogg", ".wav"]

/-- `pathlib.Path(f).suffix`: the extension from the last dot, provided
that dot is neither the first nor the last character of the name;
otherwise the empty string. -/
def pathSuffix (f : String) : String :=
  match idxOf '.' f.data.reverse with
  | none => ""
  | some rI =>
    let i := f.data.length - 1 - rI
    if 0 < i ∧ i < f.data.length - 1 then (f.data.drop i).asString else ""

/-- The audio-file filter `Path(f).suffix.lower() in AUDIO_EXTENSIONS`
(line 326). -/
def isAudio (f : String) : Bool :=
  AUDIO_EXTENSIONS.contains (strLower (pathSuffix f))

/-- Character-wise longest common prefix of two strings. -/
def commonPrefix2 : List Char → List Char → List Char
  | x :: xs, y :: ys => if x == y then x :: commonPrefix2 xs ys else []
  | _, _ => []

/-- Python line 335's common-prefix computation: the longest common literal prefix
of all names (the stdlib computes it from the lexicographic min and max,
which yields exactly the character-wise common prefix of the list). -/
def commonPrefixOf : List String → String
  | [] => ""
  | x :: xs => (xs.foldl (fun acc f => commonPrefix2 acc f.data) x.data).asString

/-- `f[0].isdigit()` (line 345).  On the empty string Python would raise;
audio filenames are never empty (they carry a recognized extension), so
the `false` default is unreachable in the program. -/
def firstCharDigit (f : String) : Bool :=
  match f.data with
  | [] => false
  | c :: _ => c.isDigit

/-- The grouping heuristic for a directory with several audio files
(lines 335–350): single book when the common prefix exceeds 3
characters, or every name starts with a digit, or every lowercased name
starts with `"track"`, or every lowercased name contains the lowercased
folder name. -/
def is_single_book (folderName : String) (audio_files : List String) : Bool :=
  if (commonPrefixOf audio_files).length > 3 then true
  else if audio_files.all firstCharDigit then true
  else if audio_files.all (fun f => strStartsWith (strLower f) "track") then true
  else if audio_files.all (fun f => subB (strLower folderName).data (strLower f).data) then true
  else false

/-- Classification outcome of a directory's audio files. -/
inductive Classification where
  | singleWork
  | mixedAmbiguous
deriving DecidableEq, Repr

/-- The classification `main` applies per directory (lines 334–352): the
heuristic is consulted only when more than one audio file is present; a
lone audio file is accepted directly. -/
def classify (folderName : String) (audio_files : List String) : Classification :=
  if audio_files.length > 1 && !(is_single_book folderName audio_files) then
    .mixedAmbiguous
  else .singleWork

/-- One enqueued enrichment task: the folder's base name and the first
audio file (`audio_files[0]`, line 366). -/
structure Task where
  folderName : String
  fileName : String
deriving DecidableEq, Repr

/-- One `os.walk` entry: the directory's base name (`Path(root).name`)
and the file names directly inside it. -/
structure DirEntry where
  name : String
  files : List String
deriving DecidableEq, Repr

/-- The scanner's state when the walk ends: the `items_checked` counter,
the ordered task list, and the skipped (mixed content) folder names. -/
structure ScanState where
  items_checked : Nat
  tasks : List Task
  skips : List String
deriving DecidableEq, Repr

/-- One iteration of the walk loop body (lines 325–372) for directory
`d`, given counter `n`, accumulated `ts` tasks and `sk` skips:
`Sum.inl` carries the updated accumulators when the loop continues
(`continue` or fall-through), `Sum.inr` the final state when the loop
`break`s on the limit. -/
def scanStep (limit : Int) (d : DirEntry) (n : Nat) (ts : List Task)
    (sk : List String) : (Nat × List Task × List String) ⊕ ScanState :=
  match d.files.filter isAudio with
  | [] => .inl (n, ts, sk)
  | f :: fs =>
    if classify d.name (f :: fs) = .mixedAmbiguous then
      if 0 < limit ∧ limit ≤ ((n + 1 : Nat) : Int) then
        .inr ⟨n + 1, ts, sk ++ [d.name]⟩
      else .inl (n + 1, ts, sk ++ [d.name])
    else
      if 0 < limit ∧ limit ≤ ((n + 1 : Nat) : Int) then
        .inr ⟨n + 1, ts ++ [⟨d.name, f⟩], sk⟩
      else .inl (n + 1, ts ++ [⟨d.name, f⟩], sk)

/-- The walk loop (lines 325–372) over the remaining `os.walk` entries. -/
def scanGo (limit : Int) : List DirEntry → Nat → List Task → List String → ScanState
  | [], n, ts, sk => ⟨n, ts, sk⟩
  | d :: rest, n, ts, sk =>
    match scanStep limit d n ts sk with
    | .inl c => scanGo limit rest c.1 c.2.1 c.2.2
    | .inr st => st

/-- The whole scan: counter starts at `0`, no tasks, no skips
(lines 321–324). -/
def scan (limit : Int) (walk : List DirEntry) : ScanState :=
  scanGo limit walk 0 [] []

/-!  The executor loop in `main` (lines 377–390): all tasks are submitted
to a four-thread pool, results are collected in completion order, each
`future.result()` is wrapped in `try`/`except`, successes are counted and
exceptions recorded (printed) without stopping the loop. -/

/-- Number of `True` results among collected worker outcomes. -/
def countSuccesses (results : List Bool) : Nat := (results.filter id).length

/-- The collection loop (lines 383–390) over per-task outcomes in
completion order: the final `processed_final` count and the recorded
per-task exceptions, in order. -/
def executor_collect (results : List (Except String Bool)) : Nat × List String :=
  results.foldl
    (fun acc r =>
      match r with
      | .ok true => (acc.1 + 1, acc.2)
      | .ok false => acc
      | .error e => (acc.1, acc.2 ++ [e]))
    (0, [])

/-!  Theorems. -/

/-- The heuristic's if-chain is the disjunction of its four rules. -/
theorem is_single_book_iff (folderName : String) (fs : List String) :
    is_single_book folderName fs = true ↔
      ((commonPrefixOf fs).length > 3 ∨
       (∀ f ∈ fs, firstCharDigit f = true) ∨
       (∀ f ∈ fs, strStartsWith (strLower f) "track" = true) ∨
       (∀ f ∈ fs, subB (strLower folderName).data (strLower f).data = true)) := by
  unfold is_single_book
  split_ifs with h1 h2 h3 h4 <;> simp_all [List.all_eq_true]

/-- C6: a directory with exactly one audio file is Single-Work; with
several audio files it is Single-Work exactly when one of the four rules
holds — common prefix longer than 3 characters, all names start with a
digit, all names case-insensitively start with "track", or all names
case-insensitively contain the folder's name — and Mixed/Ambiguous
otherwise. -/
theorem C6_grouping_heuristic (folderName : String) (audio_files : List String) :
    (∀ f, audio_files = [f] → classify folderName audio_files = .singleWork) ∧
    (audio_files.length > 1 →
      (classify folderName audio_files = .singleWork ↔
        ((commonPrefixOf audio_files).length > 3 ∨
         (∀ f ∈ audio_files, firstCharDigit f = true) ∨
         (∀ f ∈ audio_files, strStartsWith (strLower f) "track" = true) ∨
         (∀ f ∈ audio_files, subB (strLower folderName).data (strLower f).data = true)))) := by
  constructor
  · rintro f rfl
    simp [classify]
  · intro hlen
    rw [← is_single_book_iff]
    unfold classify
    rcases h : is_single_book folderName audio_files <;> simp [hlen, h]

/-- C6 witness: `BookB/01 - Intro.mp3, 02 - Chapter One.mp3` is
Single-Work via the digit rule. -/
theorem C6_grouping_heuristic_witness :
    classify "BookB" ["01 - Intro.mp3", "02 - Chapter One.mp3"] =
      Classification.singleWork :=
  ((C6_grouping_heuristic "BookB" ["01 - Intro.mp3", "02 - Chapter One.mp3"]).2
      (by decide)).mpr (Or.inr (Or.inl (by decide)))

/-- C1 counterexample: two `.m4b` files sharing the 8-character prefix
"bookpart" are classified Single-Work, and the scanner does enqueue a
task for the directory — the claim's unconditional Mixed/Ambiguous rule
for multiple single-container files does not exist in the code. -/
theorem C1_counterexample :
    pathSuffix "bookpart1.m4b" = ".m4b" ∧ pathSuffix "bookpart2.m4b" = ".m4b" ∧
    classify "Folder" ["bookpart1.m4b", "bookpart2.m4b"] =
      Classification.singleWork ∧
    (scan 0 [⟨"Folder", ["bookpart1.m4b", "bookpart2.m4b"]⟩]).tasks =
      [⟨"Folder", "bookpart1.m4b"⟩] := by
  refine ⟨rfl, rfl, rfl, rfl⟩

/-- C1 amended: a directory with more than one audio file — `.m4b` files
included, the code has no single-container special case — is classified
Single-Work whenever the names' common prefix exceeds 3 characters. -/
theorem C1_no_m4b_special_case (folderName : String) (fs : List String)
    (_h1 : fs.length > 1) (h2 : (commonPrefixOf fs).length > 3) :
    classify folderName fs = Classification.singleWork := by
  unfold classify is_single_book
  simp [h2]

/-- C1 amended witness: the counterexample directory, through the
amended rule. -/
theorem C1_no_m4b_special_case_witness :
    classify "Folder" ["bookpart1.m4b", "bookpart2.m4b"] =
      Classification.singleWork :=
  C1_no_m4b_special_case "Folder" ["bookpart1.m4b", "bookpart2.m4b"]
    (by decide) (by decide)

/-- Facts about a continuing loop iteration: the task list grows by at
most the counter increment, the counter does not decrease, and below a
positive limit the loop only continues while the counter stays below the
limit. -/
theorem scanStep_inl_facts (limit : Int) (d : DirEntry) (n : Nat)
    (ts : List Task) (sk : List String) (c : Nat × List Task × List String)
    (h : scanStep limit d n ts sk = .inl c) :
    c.2.1.length + n ≤ ts.length + c.1 ∧ n ≤ c.1 ∧
      (0 < limit → (n : Int) < limit → (c.1 : Int) < limit) := by
  obtain ⟨n', ts', sk'⟩ := c
  unfold scanStep at h
  rcases hfa : d.files.filter isAudio with _ | ⟨f, fs⟩ <;> rw [hfa] at h
  · cases h
    simp
  · dsimp only at h
    by_cases hcls : classify d.name (f :: fs) = Classification.mixedAmbiguous
    · rw [if_pos hcls] at h
      by_cases hlim : 0 < limit ∧ limit ≤ ((n + 1 : Nat) : Int)
      · rw [if_pos hlim] at h
        cases h
      · rw [if_neg hlim] at h
        cases h
        refine ⟨by simp <;> omega, by simp <;> omega, ?_⟩
        intro hpos _
        push_neg at hlim
        exact_mod_cast hlim hpos
    · rw [if_neg hcls] at h
      by_cases hlim : 0 < limit ∧ limit ≤ ((n + 1 : Nat) : Int)
      · rw [if_pos hlim] at h
        cases h
      · rw [if_neg hlim] at h
        cases h
        refine ⟨by simp <;> omega, by simp <;> omega, ?_⟩
        intro hpos _
        push_neg at hlim
        exact_mod_cast hlim hpos

/-- Facts about a breaking loop iteration: the final counter is the old
one plus one, the final task list grew by at most one, and the break only
fires at a positive limit already reached by the new counter. -/
theorem scanStep_inr_facts (limit : Int) (d : DirEntry) (n : Nat)
    (ts : List Task) (sk : List String) (st : ScanState)
    (h : scanStep limit d n ts sk = .inr st) :
    st.items_checked = n + 1 ∧
      st.tasks.length + n ≤ ts.length + st.items_checked ∧
      0 < limit ∧ limit ≤ ((n + 1 : Nat) : Int) := by
  unfold scanStep at h
  rcases hfa : d.files.filter isAudio with _ | ⟨f, fs⟩ <;> rw [hfa] at h
  · cases h
  · dsimp only at h
    by_cases hcls : classify d.name (f :: fs) = Classification.mixedAmbiguous
    · rw [if_pos hcls] at h
      by_cases hlim : 0 < limit ∧ limit ≤ ((n + 1 : Nat) : Int)
      · rw [if_pos hlim] at h
        cases h
        exact ⟨rfl, by simp <;> omega, hlim.1, hlim.2⟩
      · rw [if_neg hlim] at h
        cases h
    · rw [if_neg hcls] at h
      by_cases hlim : 0 < limit ∧ limit ≤ ((n + 1 : Nat) : Int)
      · rw [if_pos hlim] at h
        cases h
        exact ⟨rfl, by simp <;> omega, hlim.1, hlim.2⟩
      · rw [if_neg hlim] at h
        cases h

/-- Reduction of one `scanGo` step to the continuing accumulators. -/
theorem scanGo_cons_inl (limit : Int) (d : DirEntry) (rest : List DirEntry)
    (n : Nat) (ts : List Task) (sk : List String)
    (c : Nat × List Task × List String)
    (hs : scanStep limit d n ts sk = .inl c) :
    scanGo limit (d :: rest) n ts sk = scanGo limit rest c.1 c.2.1 c.2.2 := by
  simp only [scanGo]
  rw [hs]

/-- Reduction of one `scanGo` step to the breaking final state. -/
theorem scanGo_cons_inr (limit : Int) (d : DirEntry) (rest : List DirEntry)
    (n : Nat) (ts : List Task) (sk : List String) (st : ScanState)
    (hs : scanStep limit d n ts sk = .inr st) :
    scanGo limit (d :: rest) n ts sk = st := by
  simp only [scanGo]
  rw [hs]

/-- With a positive limit, starting below it, the examined counter never
exceeds the limit. -/
theorem scanGo_items_le (limit : Int) (walk : List DirEntry) :
    ∀ (n : Nat) (ts : List Task) (sk : List String), 0 < limit →
      (n : Int) < limit →
      ((scanGo limit walk n ts sk).items_checked : Int) ≤ limit := by
  induction walk with
  | nil =>
    intro n ts sk _ h2
    exact le_of_lt h2
  | cons d rest ih =>
    intro n ts sk h1 h2
    cases hs : scanStep limit d n ts sk with
    | inl c =>
      rw [scanGo_cons_inl limit d rest n ts sk c hs]
      exact ih c.1 c.2.1 c.2.2 h1 ((scanStep_inl_facts limit d n ts sk c hs).2.2 h1 h2)
    | inr st =>
      rw [scanGo_cons_inr limit d rest n ts sk st hs]
      have hf := scanStep_inr_facts limit d n ts sk st hs
      omega

/-- The scanner enqueues at most one task per examined directory. -/
theorem scanGo_tasks_le (limit : Int) (walk : List DirEntry) :
    ∀ (n : Nat) (ts : List Task) (sk : List String),
      (scanGo limit walk n ts sk).tasks.length + n ≤
        ts.length + (scanGo limit walk n ts sk).items_checked := by
  induction walk with
  | nil =>
    intro n ts sk
    simp [scanGo]
  | cons d rest ih =>
    intro n ts sk
    cases hs : scanStep limit d n ts sk with
    | inl c =>
      rw [scanGo_cons_inl limit d rest n ts sk c hs]
      have hf := scanStep_inl_facts limit d n ts sk c hs
      have hr := ih c.1 c.2.1 c.2.2
      omega
    | inr st =>
      rw [scanGo_cons_inr limit d rest n ts sk st hs]
      have hf := scanStep_inr_facts limit d n ts sk st hs
      omega

/-- Once the walk has driven the counter up to a positive limit, any
directories after it are never visited: the scan of a longer walk equals
the scan of the stopped one. -/
theorem scanGo_stop (limit : Int) (walk : List DirEntry) :
    ∀ (extra : List DirEntry) (n : Nat) (ts : List Task) (sk : List String),
      0 < limit → (n : Int) < limit →
      ((scanGo limit walk n ts sk).items_checked : Int) = limit →
      scanGo limit (walk ++ extra) n ts sk = scanGo limit walk n ts sk := by
  induction walk with
  | nil =>
    intro extra n ts sk h1 h2 h3
    exfalso
    simp only [scanGo] at h3
    omega
  | cons d rest ih =>
    intro extra n ts sk h1 h2 h3
    rw [List.cons_append]
    cases hs : scanStep limit d n ts sk with
    | inl c =>
      rw [scanGo_cons_inl limit d rest n ts sk c hs] at h3
      rw [scanGo_cons_inl limit d rest n ts sk c hs,
        scanGo_cons_inl limit d (rest ++ extra) n ts sk c hs]
      exact ih extra c.1 c.2.1 c.2.2 h1
        ((scanStep_inl_facts limit d n ts sk c hs).2.2 h1 h2) h3
    | inr st =>
      rw [scanGo_cons_inr limit d rest n ts sk st hs,
        scanGo_cons_inr limit d (rest ++ extra) n ts sk st hs]

/-- C4: with a positive scan limit L, the scanner examines at most L
directories-with-audio (skips included), enqueues at most one task per
examined directory, and once the examined counter has reached L the walk
has stopped: any further directories change nothing — in particular no
task is enqueued after the Lth examined directory, even when it was a
skip. -/
theorem C4_tree_scanner_limit (limit : Int) (walk extra : List DirEntry)
    (h : 0 < limit) :
    ((scan limit walk).items_checked : Int) ≤ limit ∧
    (scan limit walk).tasks.length ≤ (scan limit walk).items_checked ∧
    (((scan limit walk).items_checked : Int) = limit →
      scan limit (walk ++ extra) = scan limit walk) := by
  refine ⟨scanGo_items_le limit walk 0 [] [] h (by exact_mod_cast h), ?_, ?_⟩
  · have hx := scanGo_tasks_le limit walk 0 [] []
    simpa [scan] using hx
  · intro h3
    exact scanGo_stop limit walk extra 0 [] [] h (by exact_mod_cast h) h3

/-- C4 witness: limit 1, where the first examined directory is a
mixed-content skip; the second directory is never examined. -/
theorem C4_tree_scanner_limit_witness :
    ((scan 1 [⟨"A", ["x.mp3", "zzz.m4b"]⟩]).items_checked : Int) ≤ 1 ∧
    (scan 1 [⟨"A", ["x.mp3", "zzz.m4b"]⟩]).tasks.length ≤
      (scan 1 [⟨"A", ["x.mp3", "zzz.m4b"]⟩]).items_checked ∧
    (((scan 1 [⟨"A", ["x.mp3", "zzz.m4b"]⟩]).items_checked : Int) = 1 →
      scan 1 ([⟨"A", ["x.mp3", "zzz.m4b"]⟩] ++ [⟨"B", ["y.mp3"]⟩]) =
        scan 1 [⟨"A", ["x.mp3", "zzz.m4b"]⟩]) :=
  C4_tree_scanner_limit 1 [⟨"A", ["x.mp3", "zzz.m4b"]⟩] [⟨"B", ["y.mp3"]⟩]
    (by decide)

/-- C2: with a positive limit, the scan produces at most `limit` tasks,
so in any completion order, as soon as the number of collected successes
reaches the limit, every submitted task's result has already been
collected — nothing is submitted or collected afterwards. -/
theorem C2_success_limit_stops_collection (limit : Int) (walk : List DirEntry)
    (outcome : Task → Bool) (collected p : List Bool) (h : 0 < limit)
    (hperm : collected.Perm ((scan limit walk).tasks.map outcome))
    (hp : p <+: collected)
    (hs : limit ≤ (countSuccesses p : Int)) :
    p = collected := by
  obtain ⟨t, rfl⟩ := hp
  have hlen : p.length + t.length = (scan limit walk).tasks.length := by
    simpa using hperm.length_eq
  have h1 : (scan limit walk).tasks.length ≤ (scan limit walk).items_checked := by
    have hx := scanGo_tasks_le limit walk 0 [] []
    simpa [scan] using hx
  have h2 : ((scan limit walk).items_checked : Int) ≤ limit :=
    scanGo_items_le limit walk 0 [] [] h (by exact_mod_cast h)
  have h3 : countSuccesses p ≤ p.length := List.length_filter_le _ _
  have ht : t.length = 0 := by omega
  simp [List.length_eq_zero.mp ht]

/-- C2 witness: limit 1, a single-task scan, entirely collected. -/
theorem C2_success_limit_witness :
    (0 : Int) < 1 ∧ ([true] : List Bool) = [true] :=
  ⟨by decide,
   C2_success_limit_stops_collection 1 [⟨"B", ["a.mp3"]⟩] (fun _ => true)
     [true] [true] (by decide) (List.Perm.refl [true]) ⟨[], by simp⟩
     (by decide)⟩

/-- A non-empty record is not `isEmpty`. -/
theorem record_isEmpty_false (m : Record) (hne : m ≠ []) : m.isEmpty = false := by
  cases m with
  | nil => exact absurd rfl hne
  | cons a l => rfl

/-- Unfolding of the accepting run of `process_file`: no artifact yet,
extraction succeeds with a non-empty record, the confidence converts and
clears the threshold, not a dry run, no force. -/
theorem process_file_accept (parse : String → Option Record) (env : Env)
    (folderName : String) (absConfig : Option AbsConfig) (m : Record) (q : ℚ)
    (hmeta : env.metadataExists = false)
    (hext : extract_json parse env.rawOutput = some m)
    (hne : m ≠ [])
    (hconf : pyFloat (dictGet m "confidence" (Value.num (1/2))) = .ok q)
    (hq : 3/5 ≤ q) :
    process_file parse env folderName false absConfig false =
      .ok ⟨true, true,
        some (dictPop (dictPop m "confidence") "confidence_reason"),
        match absConfig with
        | none => false
        | some cfg =>
          match cfg.map.lookup folderName with
          | some _ => trigger_abs_scan env.triggerOk
          | none => false⟩ := by
  have hne' := record_isEmpty_false m hne
  have hq' : ¬(q < 3/5) := not_lt.mpr hq
  simp [process_file, hmeta, hext, hne', hconf, hq', -one_div]

/-- C3 counterexample: in dry-run mode, a directory whose artifact
already exists and with no force flag still invokes the assistant — the
already-done fast path additionally requires non-dry-run in the code. -/
theorem C3_counterexample :
    (Env.mk true (some "no json") true).metadataExists = true ∧
    process_file (fun _ => none) (Env.mk true (some "no json") true) "Book"
        true none false =
      .ok ⟨false, true, none, false⟩ :=
  ⟨rfl, rfl⟩

/-- C3 amended: in a non-dry-run execution, a task whose directory
already holds `metadata.json`, with no force flag, returns False with no
assistant invocation, no new artifact, and no catalog trigger — so a
second non-dry-run pass over an enriched directory does nothing. -/
theorem C3_skip_existing_artifact (parse : String → Option Record) (env : Env)
    (folderName : String) (cfg : Option AbsConfig)
    (h : env.metadataExists = true) :
    process_file parse env folderName false cfg false =
      .ok ⟨false, false, none, false⟩ := by
  simp [process_file, h]

/-- C3 amended witness. -/
theorem C3_skip_existing_artifact_witness :
    process_file (fun _ => none) (Env.mk true none true) "Book" false none
        false = .ok ⟨false, false, none, false⟩ :=
  C3_skip_existing_artifact (fun _ => none) (Env.mk true none true) "Book"
    none rfl

/-- C5: with the worker past the artifact check, a successfully parsed
non-empty record whose confidence field converts to `q` — defaulting to
`0.5` when the field is absent — is accepted (returns True) if and only
if `q ≥ 0.60`, and an artifact is persisted if and only if `q ≥ 0.60`:
the threshold comparison is strict `<` for rejection, so exactly `0.60`
is accepted and the `0.5` default is rejected. -/
theorem C5_confidence_threshold (parse : String → Option Record) (env : Env)
    (folderName : String) (cfg : Option AbsConfig) (m : Record) (q : ℚ)
    (hmeta : env.metadataExists = false)
    (hext : extract_json parse env.rawOutput = some m)
    (hne : m ≠ [])
    (hconf : pyFloat (dictGet m "confidence" (Value.num (1/2))) = .ok q) :
    ∃ r, process_file parse env folderName false cfg false = .ok r ∧
      (r.ret = true ↔ 3/5 ≤ q) ∧ (r.persisted ≠ none ↔ 3/5 ≤ q) := by
  by_cases hq : q < 3/5
  · have hne' := record_isEmpty_false m hne
    refine ⟨⟨false, true, none, false⟩, ?_, ?_, ?_⟩
    · simp [process_file, hmeta, hext, hne', hconf, hq, -one_div]
    · simp [not_le.mpr hq]
    · simp [not_le.mpr hq]
  · have hq' : 3/5 ≤ q := not_lt.mp hq
    exact ⟨_, process_file_accept parse env folderName cfg m q hmeta hext hne
      hconf hq', by simp [hq'], by simp [hq']⟩

/-- Concrete record at the acceptance boundary: confidence exactly 0.60. -/
def wRecordC5 : Record :=
  [("title", Value.str "The Book"), ("authors", Value.strList ["An Author"]),
   ("confidence", Value.num (3/5)), ("confidence_reason", Value.str "match")]

/-- C5 witness: confidence exactly 0.60 is accepted and persisted. -/
theorem C5_confidence_threshold_witness :
    ∃ r, process_file (fun _ => some wRecordC5) (Env.mk false (some "{j}") true)
        "Book" false none false = .ok r ∧
      (r.ret = true ↔ (3 : ℚ)/5 ≤ 3/5) ∧ (r.persisted ≠ none ↔ (3 : ℚ)/5 ≤ 3/5) :=
  C5_confidence_threshold (fun _ => some wRecordC5)
    (Env.mk false (some "{j}") true) "Book" none wRecordC5 (3/5) rfl
    rfl (by simp [wRecordC5]) rfl

/-- Popping the two confidence keys is one filter keeping every other
key. -/
theorem dictPop_confidence_eq_filter (m : Record) :
    dictPop (dictPop m "confidence") "confidence_reason" =
      m.filter (fun kv =>
        !(kv.1 == "confidence") && !(kv.1 == "confidence_reason")) := by
  induction m with
  | nil => rfl
  | cons kv rest ih =>
    by_cases h1 : kv.1 = "confidence" <;> by_cases h2 : kv.1 = "confidence_reason" <;>
      simp [dictPop, List.filter_cons, h1, h2] at ih ⊢ <;>
      simpa [dictPop] using ih

/-- C7: an accepted record is persisted as exactly the parsed record
with the `confidence` and `confidence_reason` keys removed: every other
key/value pair is kept unchanged, in order, and nothing is added. -/
theorem C7_roundtrip_strip_confidence (parse : String → Option Record)
    (env : Env) (folderName : String) (m : Record) (q : ℚ)
    (hmeta : env.metadataExists = false)
    (hext : extract_json parse env.rawOutput = some m)
    (hne : m ≠ [])
    (hconf : pyFloat (dictGet m "confidence" (Value.num (1/2))) = .ok q)
    (hq : 3/5 ≤ q) :
    ∃ r, process_file parse env folderName false none false = .ok r ∧
      r.persisted = some (m.filter (fun kv =>
        !(kv.1 == "confidence") && !(kv.1 == "confidence_reason"))) ∧
      ∀ kv, kv ∈ m.filter (fun kv =>
          !(kv.1 == "confidence") && !(kv.1 == "confidence_reason")) ↔
        (kv ∈ m ∧ kv.1 ≠ "confidence" ∧ kv.1 ≠ "confidence_reason") := by
  refine ⟨_, process_file_accept parse env folderName none m q hmeta hext hne
    hconf hq, ?_, ?_⟩
  · simpa using congrArg some (dictPop_confidence_eq_filter m)
  · intro kv
    simp [List.mem_filter, and_assoc]

/-- Concrete accepted record for the C7 witness. -/
def wRecordC7 : Record :=
  [("title", Value.str "A Title"), ("publisher", Value.str "Pub"),
   ("confidence", Value.num (7/10)), ("confidence_reason", Value.str "found")]

/-- C7 witness: confidence 0.7 record round-trips minus the two
confidence keys. -/
theorem C7_roundtrip_witness :
    ∃ r, process_file (fun _ => some wRecordC7) (Env.mk false (some "{j}") true)
        "Book" false none false = .ok r ∧
      r.persisted = some (wRecordC7.filter (fun kv =>
        !(kv.1 == "confidence") && !(kv.1 == "confidence_reason"))) ∧
      ∀ kv, kv ∈ wRecordC7.filter (fun kv =>
          !(kv.1 == "confidence") && !(kv.1 == "confidence_reason")) ↔
        (kv ∈ wRecordC7 ∧ kv.1 ≠ "confidence" ∧ kv.1 ≠ "confidence_reason") :=
  C7_roundtrip_strip_confidence (fun _ => some wRecordC7)
    (Env.mk false (some "{j}") true) "Book" wRecordC7 (7/10) rfl rfl
    (by simp [wRecordC7]) rfl (by norm_num)

/-- C8: JSON extraction strips the leading and trailing code-fence
markers, then takes the first-`{`-to-last-`}` span and parses it; the
result is None exactly when the input is empty, no such span exists, or
the span fails to parse — and on a None extraction the worker reports
the task failed (returns False, persists nothing) instead of raising. -/
theorem C8_extraction_failure_is_nonfatal (parse : String → Option Record)
    (text : String) :
    (extract_json parse (some text) = none ↔
      (text = "" ∨ spanOf (stripFences text) = none ∨
        ∃ s, spanOf (stripFences text) = some s ∧ parse s = none)) ∧
    (∀ (env : Env) (folderName : String) (cfg : Option AbsConfig),
      env.rawOutput = some text → env.metadataExists = false →
      extract_json parse (some text) = none →
      process_file parse env folderName false cfg false =
        .ok ⟨false, true, none, false⟩) := by
  constructor
  · unfold extract_json
    by_cases ht : text = ""
    · simp [ht]
    · cases hsp : spanOf (stripFences text) with
      | none => simp [ht, hsp]
      | some s => simp [ht, hsp]
  · intro env folderName cfg hraw hmeta hfail
    rw [← hraw] at hfail
    simp [process_file, hmeta, hfail]

/-- C8 witness: a fenced response with no brace span extracts to None
and the worker returns a plain failure. -/
theorem C8_extraction_failure_witness :
    extract_json (fun _ => none) (some "no braces here") = none ∧
    process_file (fun _ => none)
        (Env.mk false (some "no braces here") true) "Book" false none false =
      .ok ⟨false, true, none, false⟩ :=
  ⟨((C8_extraction_failure_is_nonfatal (fun _ => none) "no braces here").1).mpr
      (Or.inr (Or.inl (by decide))),
   (C8_extraction_failure_is_nonfatal (fun _ => none) "no braces here").2
     (Env.mk false (some "no braces here") true) "Book" none rfl rfl
     (((C8_extraction_failure_is_nonfatal (fun _ => none) "no braces here").1).mpr
       (Or.inr (Or.inl (by decide))))⟩

/-- C9: for an accepted enrichment with catalog synchronization
configured, the worker returns success whatever the catalog map contains
(lookup hit or miss) and whether or not the re-scan POST succeeds: a
lookup miss or a trigger failure never fails the task. -/
theorem C9_catalog_errors_never_fail_task (parse : String → Option Record)
    (env : Env) (folderName : String) (cfg : AbsConfig) (m : Record) (q : ℚ)
    (hmeta : env.metadataExists = false)
    (hext : extract_json parse env.rawOutput = some m)
    (hne : m ≠ [])
    (hconf : pyFloat (dictGet m "confidence" (Value.num (1/2))) = .ok q)
    (hq : 3/5 ≤ q) :
    ∃ r, process_file parse env folderName false (some cfg) false = .ok r ∧
      r.ret = true :=
  ⟨_, process_file_accept parse env folderName (some cfg) m q hmeta hext hne
    hconf hq, rfl⟩

/-- Concrete accepted record for the C9 witness. -/
def wRecordC9 : Record :=
  [("title", Value.str "A Title"), ("confidence", Value.num (7/10))]

/-- C9 witness: the catalog map does not contain the folder (lookup
miss) and the trigger POST would fail, yet the task succeeds. -/
theorem C9_catalog_witness :
    ∃ r, process_file (fun _ => some wRecordC9)
        (Env.mk false (some "{j}") false) "Book" false
        (some ⟨[("OtherBook", ⟨"li_1"⟩)]⟩) false = .ok r ∧ r.ret = true :=
  C9_catalog_errors_never_fail_task (fun _ => some wRecordC9)
    (Env.mk false (some "{j}") false) "Book" ⟨[("OtherBook", ⟨"li_1"⟩)]⟩
    wRecordC9 (7/10) rfl rfl (by simp [wRecordC9]) rfl (by norm_num)

/-- Record whose confidence field is a non-numeric string: `float()`
raises on it. -/
def wRecordBad : Record :=
  [("title", Value.str "X"), ("confidence", Value.str "high")]

/-- Record with a high numeric confidence. -/
def wRecordGood : Record :=
  [("title", Value.str "Y"), ("confidence", Value.num (9/10))]

/-- C10: a successfully parsed response whose confidence value is a
non-numeric string makes the worker raise (ValueError from `float()`)
instead of returning a failure; the executor's per-task try/except
records the exception and the other tasks still complete — here the
second task succeeds and is counted. -/
theorem C10_unconvertible_confidence_raises :
    process_file (fun _ => some wRecordBad) (Env.mk false (some "{x}") true)
        "B1" false none false = .error "ValueError" ∧
    process_file (fun _ => some wRecordGood) (Env.mk false (some "{x}") true)
        "B2" false none false =
      .ok ⟨true, true, some [("title", Value.str "Y")], false⟩ ∧
    executor_collect
      [(process_file (fun _ => some wRecordBad)
          (Env.mk false (some "{x}") true) "B1" false none false).map
        ProcResult.ret,
       (process_file (fun _ => some wRecordGood)
          (Env.mk false (some "{x}") true) "B2" false none false).map
        ProcResult.ret] = (1, ["ValueError"]) := by
  have hd : dictPop (dictPop wRecordGood "confidence") "confidence_reason" =
      [("title", Value.str "Y")] := rfl
  have hgood := process_file_accept (fun _ => some wRecordGood)
    (Env.mk false (some "{x}") true) "B2" none wRecordGood (9/10) rfl rfl
    (by simp [wRecordGood]) rfl (by norm_num)
  rw [hd] at hgood
  have hbad : process_file (fun _ => some wRecordBad)
      (Env.mk false (some "{x}") true) "B1" false none false =
      .error "ValueError" := rfl
  refine ⟨hbad, hgood, ?_⟩
  rw [hbad, hgood]
  rfl

end ApplyMetadata
